import Mathlib

/-!
Shallow embedding of the meshai-mcp request-validation-and-forwarding
pipeline: the auth client (`src/meshai_mcp/auth/client.py`), the
authentication rate limiter (`src/meshai_mcp/auth/rate_limiter.py`), the
gateway client with its circuit breaker
(`src/meshai_mcp/gateway_client.py`), the HTTP MCP handler
(`src/meshai_mcp/http_server.py`) and the auth middleware's token
extraction (`src/meshai_mcp/auth/middleware.py`).

HTTP calls are modelled by passing in the outcome of each network
attempt explicitly; time is modelled as an explicit parameter.  UUIDs
are modelled as strings, response bodies as structures holding the
fields the code reads after JSON decoding.
-/

namespace MeshAI

/-! ## Auth data model (`auth/models.py`) -/

/-- `AuthErrorType` enum from `auth/models.py`. -/
inductive AuthErrorType where
  | invalidToken
  | expiredToken
  | missingToken
  | insufficientPermissions
  | rateLimitExceeded
  | serviceUnavailable
deriving DecidableEq, Repr

/-- `AuthError` dataclass (the optional `details` field is never set by the
auth client and is omitted). -/
structure AuthError where
  error_type : AuthErrorType
  message : String
deriving DecidableEq, Repr

/-- `TokenValidation` dataclass.  `user_id`/`tenant_id` UUIDs are modelled
as strings. -/
structure TokenValidation where
  valid : Bool
  user_id : Option String := none
  tenant_id : Option String := none
  permissions : List String := []
  rate_limit : Option Nat := none
  error : Option AuthError := none
deriving DecidableEq, Repr

/-! ## Permission extraction
(`AuthClient._extract_permissions_from_dashboard_response`) -/

/-- Result of `json.loads` applied to a permissions string: a JSON list of
strings, a JSON object with `scopes`/`resources` lists, or any other JSON
value. -/
inductive PermsJson where
  | jlist (l : List String)
  | jdict (scopes resources : List String)
  | jother
deriving DecidableEq, Repr

/-- The `permissions` field of the decoded dashboard response body:
a list, a dict with `scopes`/`resources`, a string (carrying the result of
`json.loads`, `none` meaning a decode error), some other value, or absent
from the body. -/
inductive PermsField where
  | plist (l : List String)
  | pdict (scopes resources : List String)
  | pstr (parsed : Option PermsJson)
  | pother
  | absent
deriving DecidableEq, Repr

/-- The nested `for scope in scopes: for resource in resources:` loops
appending `f"{scope}:{resource}"`. -/
def crossPerms (scopes resources : List String) : List String :=
  scopes.flatMap (fun scope => resources.map (fun resource => scope ++ ":" ++ resource))

/-- The default permission list added when none were extracted. -/
def defaultMcpPermissions : List String :=
  ["read:tools", "read:resources", "execute:mcp"]

/-- `AuthClient._extract_permissions_from_dashboard_response`: branch on the
shape of the `permissions` field, then fall back to the default list when
the accumulated permissions are empty. -/
def extract_permissions_from_dashboard_response (perms : PermsField) : List String :=
  let permissions : List String :=
    match perms with
    | .pdict scopes resources => crossPerms scopes resources
    | .plist l => l
    | .pstr (some (.jlist l)) => l
    | .pstr (some (.jdict scopes resources)) => crossPerms scopes resources
    | .pstr (some .jother) => []
    | .pstr none => []
    | .pother => []
    | .absent => []
  if permissions = [] then defaultMcpPermissions else permissions

/-! ## Token validation (`AuthClient.validate_token`) -/

/-- The decoded JSON body and status of an auth-service response, holding
the fields `validate_token` reads: `valid` (`data.get('valid', False)`),
`user` (`data.get('user')`, modelled by the contained user id when the
object is present), `error` (`data.get('error')`) and `permissions`. -/
structure AuthHttpResponse where
  status_code : Nat
  valid : Bool := false
  user : Option String := none
  error_msg : Option String := none
  permissions : PermsField := .absent
deriving DecidableEq, Repr

/-- Outcome of `AuthClient._call_auth_service` as observed by
`validate_token`: a response, or one of the three exception classes the
`except` clauses distinguish. -/
inductive AuthServiceOutcome where
  | response (r : AuthHttpResponse)
  | timeout
  | requestError
  | otherException
deriving DecidableEq, Repr

/-- The token cache, abstracting the `TTLCache` keyed by
`f"token:{hash(token)}"`: an association list from token to cached
validation (TTL expiry is not modelled; an absent key covers it). -/
abbrev TokenCache := List (String × TokenValidation)

/-- `TTLCache.get`. -/
def cacheGet (c : TokenCache) (token : String) : Option TokenValidation :=
  (List.find? (fun p => p.1 = token) c).map (fun p => p.2)

/-- The fixed identity returned for the `dev_test123` development token. -/
def devTokenValidation : TokenValidation :=
  { valid := true
    user_id := some "00000000-0000-0000-0000-000000000001"
    tenant_id := none
    permissions := ["read:tools", "read:resources", "execute:mcp", "admin:all"] }

/-- `AuthClient.validate_token`, returning the produced `TokenValidation`
together with the token cache after the call.  `enable_cache` is
`config.enable_token_cache` (i.e. whether `self._token_cache` exists);
`outcome` is what `_call_auth_service` produced when the code reaches the
network call. -/
def validate_token (enable_cache : Bool) (cache : TokenCache) (token : String)
    (outcome : AuthServiceOutcome) : TokenValidation × TokenCache :=
  if token = "" then
    ({ valid := false
       error := some { error_type := .missingToken, message := "Token is required" } },
     cache)
  else if token = "dev_test123" then
    (devTokenValidation, cache)
  else
    match (if enable_cache then cacheGet cache token else none) with
    | some cached => (cached, cache)
    | none =>
      match outcome with
      | .response r =>
        if r.status_code = 200 then
          if r.valid && r.user.isSome then
            let validation : TokenValidation :=
              { valid := true
                user_id := r.user
                tenant_id := none
                permissions := extract_permissions_from_dashboard_response r.permissions }
            (validation, if enable_cache then (token, validation) :: cache else cache)
          else
            ({ valid := false
               error := some { error_type := .invalidToken
                               message := r.error_msg.getD "Invalid token response" } },
             cache)
        else if r.status_code = 401 then
          ({ valid := false
             error := some { error_type := .invalidToken
                             message := "Invalid or expired token" } },
           cache)
        else if r.status_code = 429 then
          ({ valid := false
             error := some { error_type := .rateLimitExceeded
                             message := "Rate limit exceeded" } },
           cache)
        else
          ({ valid := false
             error := some { error_type := .serviceUnavailable
                             message := "Auth service error: " ++ toString r.status_code } },
           cache)
      | .timeout =>
        ({ valid := false
           error := some { error_type := .serviceUnavailable
                           message := "Authentication service timeout" } },
         cache)
      | .requestError =>
        ({ valid := false
           error := some { error_type := .serviceUnavailable
                           message := "Authentication service unavailable" } },
         cache)
      | .otherException =>
        ({ valid := false
           error := some { error_type := .serviceUnavailable
                           message := "Token validation failed" } },
         cache)

/-! ## Per-user hourly rate limiting
(`AuthClient.check_rate_limit` / `AuthClient.get_rate_limit_info`)

The code keeps `self._rate_limits[user_key]` as a dict from stringified
hour bucket to count.  We model the per-user-key dict as an association
list from the hour number (`int(time.time() / 3600)`) to the count; the
stringification of keys is a bijection on naturals and is elided. -/

/-- The per-user-key bucket dict: hour bucket number to request count. -/
abbrev HourBuckets := List (Nat × Nat)

/-- `user_limits.get(str(current_time), 0)`. -/
def bucketGet (b : HourBuckets) (hour : Nat) : Nat :=
  ((List.find? (fun p => p.1 = hour) b).map (fun p => p.2)).getD 0

/-- `user_limits[str(current_time)] = c`: dict assignment. -/
def bucketSet (b : HourBuckets) (hour c : Nat) : HourBuckets :=
  (hour, c) :: List.filter (fun p => p.1 ≠ hour) b

/-- `RateLimitInfo` dataclass.  `remaining` is an integer so the clamping
`max(0, ...)` in the code is visible. -/
structure RateLimitInfo where
  limit : Nat
  remaining : Int
  reset_time : Nat
  window_seconds : Nat := 3600
deriving DecidableEq, Repr

/-- `AuthClient.check_rate_limit` restricted to one `user_key`
(the outer dict keyed by `f"{user_id}:{resource}"` only separates
independent states).  `enable` is `config.enable_rate_limiting`;
`rate_limit` is `user_context.rate_limit`; `hour` is the current hour
bucket.  Returns the decision and the bucket dict after the call. -/
def check_rate_limit (enable : Bool) (rate_limit : Nat) (hour : Nat)
    (b : HourBuckets) : Bool × HourBuckets :=
  if !enable then (true, b)
  else
    let current_count := bucketGet b hour
    if rate_limit ≤ current_count then (false, b)
    else
      let b1 := bucketSet b hour (current_count + 1)
      -- delete buckets with int(k) < current_time - 1
      let b2 := List.filter (fun p => !(p.1 < hour - 1)) b1
      (true, b2)

/-- `AuthClient.get_rate_limit_info` restricted to one `user_key`. -/
def get_rate_limit_info (rate_limit : Nat) (hour : Nat) (b : HourBuckets) :
    RateLimitInfo :=
  let current_count := bucketGet b hour
  { limit := rate_limit
    remaining := max 0 ((rate_limit : Int) - current_count)
    reset_time := (hour + 1) * 3600
    window_seconds := 3600 }

/-- `n` consecutive `check_rate_limit` calls at the same hour bucket,
returning the final bucket state. -/
def repeatCheck (enable : Bool) (rate_limit hour : Nat) :
    Nat → HourBuckets → HourBuckets
  | 0, b => b
  | n + 1, b => repeatCheck enable rate_limit hour n
      (check_rate_limit enable rate_limit hour b).2

/-- A sequence of `check_rate_limit` calls, one per listed hour value. -/
def runChecks (enable : Bool) (rate_limit : Nat) :
    List Nat → HourBuckets → HourBuckets
  | [], b => b
  | hour :: rest, b =>
      runChecks enable rate_limit rest (check_rate_limit enable rate_limit hour b).2

/-! ## Sliding-window attempt limiter (`auth/rate_limiter.py`) -/

/-- Eviction loop shared by `is_allowed` and `get_remaining_attempts`:
`while attempts and attempts[0] < current_time - window_seconds:
attempts.popleft()`.  Timestamps are integers (seconds). -/
def evict (now window : Int) : List Int → List Int
  | [] => []
  | t :: rest => if t < now - window then evict now window rest else t :: rest

/-- `RateLimiter.is_allowed` for one identifier: evict, reject when the
count reached `max_attempts`, otherwise record the attempt.  Returns the
decision and the deque after the call. -/
def is_allowed (max_attempts : Nat) (window now : Int) (attempts : List Int) :
    Bool × List Int :=
  let a := evict now window attempts
  if max_attempts ≤ a.length then (false, a)
  else (true, a ++ [now])

/-- `RateLimiter.record_failed_attempt`: unconditional append. -/
def record_failed_attempt (now : Int) (attempts : List Int) : List Int :=
  attempts ++ [now]

/-- `RateLimiter.get_remaining_attempts`: evicts, then returns
`max(0, max_attempts - len(attempts))` (and the deque after the call,
since the eviction mutates it). -/
def get_remaining_attempts (max_attempts : Nat) (window now : Int)
    (attempts : List Int) : Int × List Int :=
  let a := evict now window attempts
  (max 0 ((max_attempts : Int) - a.length), a)

/-- `RateLimiter.get_reset_time`: `None` when the deque is empty or holds
fewer than `max_attempts` timestamps, otherwise `attempts[0] +
window_seconds`.  Note: no eviction happens here. -/
def get_reset_time (max_attempts : Nat) (window : Int)
    (attempts : List Int) : Option Int :=
  match attempts with
  | [] => none
  | t :: rest => if (t :: rest).length < max_attempts then none else some (t + window)

/-! ## Circuit breaker (`gateway_client.py`, `CircuitBreakerState`) -/

/-- The `state` string: `"closed"`, `"open"`, `"half-open"`. -/
inductive CBStatus where
  | closed
  | opened
  | halfOpen
deriving DecidableEq, Repr

/-- `CircuitBreakerState` with its configuration.  Time is in seconds;
`last_failure_time` a timestamp. -/
structure CircuitBreakerState where
  failure_threshold : Nat := 5
  recovery_timeout : Nat := 60
  failure_count : Nat := 0
  last_failure_time : Option Nat := none
  state : CBStatus := .closed
deriving DecidableEq, Repr

/-- `CircuitBreakerState.record_success`. -/
def record_success (s : CircuitBreakerState) : CircuitBreakerState :=
  { s with failure_count := 0, state := .closed }

/-- `CircuitBreakerState.record_failure` at time `now`. -/
def record_failure (now : Nat) (s : CircuitBreakerState) : CircuitBreakerState :=
  let s1 := { s with failure_count := s.failure_count + 1, last_failure_time := some now }
  if s1.failure_threshold ≤ s1.failure_count then { s1 with state := .opened } else s1

/-- `CircuitBreakerState.can_execute` at time `now`
(`(datetime.utcnow() - self.last_failure_time).seconds` is modelled as
`now - t`).  Returns the decision and the state after the call (the open
state may transition to half-open). -/
def can_execute (now : Nat) (s : CircuitBreakerState) : Bool × CircuitBreakerState :=
  match s.state with
  | .closed => (true, s)
  | .opened =>
    match s.last_failure_time with
    | some t =>
      if s.recovery_timeout ≤ now - t then (true, { s with state := .halfOpen })
      else (false, s)
    | none => (false, s)
  | .halfOpen => (true, s)

/-- One operation applied to the circuit breaker. -/
inductive CBOp where
  | success
  | failure (now : Nat)
  | canExec (now : Nat)
deriving DecidableEq, Repr

/-- Apply one operation. -/
def applyCBOp (s : CircuitBreakerState) : CBOp → CircuitBreakerState
  | .success => record_success s
  | .failure now => record_failure now s
  | .canExec now => (can_execute now s).2

/-- Apply a sequence of operations. -/
def runCBOps (s : CircuitBreakerState) : List CBOp → CircuitBreakerState
  | [] => s
  | op :: rest => runCBOps (applyCBOp s op) rest

/-- `CircuitBreakerState.__init__`. -/
def initCB (failure_threshold recovery_timeout : Nat) : CircuitBreakerState :=
  { failure_threshold := failure_threshold
    recovery_timeout := recovery_timeout
    failure_count := 0
    last_failure_time := none
    state := .closed }

/-! ## Gateway client (`gateway_client.py`, `TenantGatewayClient`) -/

/-- A JSON-RPC style error object `{code, message}`. -/
structure MCPError where
  code : Int
  message : String
deriving DecidableEq, Repr

/-- `MCPForwardResponse` (`tenant_context.py`): the normalized result of a
gateway call.  `result`/`quota_remaining` payloads are opaque strings;
`processing_time` (a Python float) is a rational. -/
structure MCPForwardResponse where
  success : Bool
  result : Option String := none
  error : Option MCPError := none
  usage_recorded : Bool := false
  quota_remaining : Option String := none
  processing_time : Rat := 0
deriving DecidableEq, Repr

/-- The decoded body of a gateway HTTP response, holding every field
`_execute_request` reads: the `200` body fields, the `400` body's
`detail` (`none` covers both an absent field and a non-JSON body), and
the raw `error_text` used for other statuses. -/
structure GatewayBody where
  success : Bool := false
  result : Option String := none
  error : Option MCPError := none
  usage_recorded : Bool := false
  quota_remaining : Option String := none
  processing_time : Rat := 0
  detail : Option String := none
  text : String := ""
deriving DecidableEq, Repr

/-- Outcome of one attempt of `session.post` inside `_execute_request`:
an HTTP response, or a transport-level exception with message `msg`. -/
inductive GatewayOutcome where
  | http (status : Nat) (body : GatewayBody)
  | transportError (msg : String)
deriving DecidableEq, Repr

/-- `TenantGatewayClient._execute_request` on one attempt's outcome.
`Except.error e` models a raised exception carrying message `e`
(`aiohttp.ClientResponseError` with `message=f"Gateway error: {error_text}"`
for unmapped statuses). -/
def execute_request (o : GatewayOutcome) : Except String MCPForwardResponse :=
  match o with
  | .transportError msg => .error msg
  | .http status body =>
    if status = 200 then
      .ok { success := body.success
            result := body.result
            error := body.error
            usage_recorded := body.usage_recorded
            quota_remaining := body.quota_remaining
            processing_time := body.processing_time }
    else if status = 400 then
      .ok { success := false
            error := some { code := -32602, message := body.detail.getD "Bad request" } }
    else if status = 401 then
      .ok { success := false
            error := some { code := -32001, message := "Authentication failed" } }
    else if status = 403 then
      .ok { success := false
            error := some { code := -32002, message := "Access denied" } }
    else if status = 429 then
      .ok { success := false
            error := some { code := -32003, message := "Rate limit exceeded" } }
    else
      .error ("Gateway error: " ++ body.text)

/-- `TenantGatewayClient._execute_with_retries`: try each attempt in turn;
an attempt that raises is retried, and the last attempt's exception is
re-raised (`raise last_error`).  The list holds one outcome per attempt,
so its length is `config.retry_attempts`. -/
def execute_with_retries : List GatewayOutcome → Except String MCPForwardResponse
  | [] => .error "no attempts"
  | [o] => execute_request o
  | o :: o2 :: rest =>
    match execute_request o with
    | .ok r => .ok r
    | .error _ => execute_with_retries (o2 :: rest)

/-- The exception-to-response wrapping in
`TenantGatewayClient.forward_mcp_request`: a raised exception from the
retry loop becomes `{success: false, error: {code: -32603, message:
f"Gateway communication error: {str(e)}"}}`. -/
def forward_result (outcomes : List GatewayOutcome) : MCPForwardResponse :=
  match execute_with_retries outcomes with
  | .ok r => r
  | .error e =>
    { success := false
      error := some { code := -32603, message := "Gateway communication error: " ++ e } }

/-! ## HTTP MCP handler (`http_server.py`, `handle_mcp_request`) -/

/-- The parsed `POST /v1/mcp` body as far as the handler inspects it:
`method` and the optional `id` (string or int ids are both modelled as
strings; only presence matters to the handler's branching). -/
structure MCPRequestIn where
  method : String
  id : Option String := none
deriving DecidableEq, Repr

/-- What the handler sends back: an HTTP 204 with empty body (the
notification acknowledgment), a JSON-RPC success body, or a JSON-RPC
error body. -/
inductive MCPHttpResponse where
  | noContent
  | success (id : String) (result : Option String)
  | error (id : String) (err : Option MCPError)
deriving DecidableEq, Repr

/-- The environment the handler consults after classifying the message:
the two `TenantContextValidator` checks, `validate_mcp_message`'s errors,
`validate_request_size`, the gateway health check, and the gateway's
normalized response to the forwarded request. -/
structure PipelineEnv where
  tenant_ok : Bool
  perm_ok : Bool
  validation_errors : List String
  size_ok : Bool
  gateway_healthy : Bool
  gateway_response : MCPForwardResponse
deriving DecidableEq, Repr

/-- `handle_mcp_request` (`http_server.py`): a message without an `id` is
a notification and is acknowledged with HTTP 204 and an empty body;
otherwise the request runs through tenant/permission checks, structural
validation, the size cap, the gateway health pre-flight, and forwarding. -/
def handle_mcp_request (env : PipelineEnv) (req : MCPRequestIn) : MCPHttpResponse :=
  match req.id with
  | none => .noContent
  | some i =>
    if !env.tenant_ok then
      .error i (some { code := -32002, message := "Tenant access required for MCP operations" })
    else if !env.perm_ok then
      .error i (some { code := -32002, message := "Insufficient permissions for MCP operations" })
    else if !(env.validation_errors = []) then
      .error i (some { code := -32602
                       message := "Invalid request: " ++ String.intercalate ", " env.validation_errors })
    else if !env.size_ok then
      .error i (some { code := -32602, message := "Request too large" })
    else if !env.gateway_healthy then
      .error i (some { code := -32603, message := "Gateway service unavailable" })
    else if env.gateway_response.success then
      .success i env.gateway_response.result
    else
      .error i env.gateway_response.error

/-! ## Auth middleware token extraction
(`auth/middleware.py`, `AuthMiddleware._extract_token`) -/

/-- `"Bearer "` as a character list (7 characters). -/
def bearerMarker : List Char := ['B', 'e', 'a', 'r', 'e', 'r', ' ']

/-- `AuthMiddleware._extract_token`: header values are modelled as
character lists.  `none` in is a missing `Authorization` header; an empty
value is falsy in Python and also yields `None`.  A value starting with
`"Bearer "` is stripped of the marker (`authorization[7:]`); any other
value is returned whole. -/
def extract_token (authorization : Option (List Char)) : Option (List Char) :=
  match authorization with
  | none => none
  | some a =>
    if a = [] then none
    else if bearerMarker.isPrefixOf a then some (a.drop 7)
    else some a

/-! ## Helper definitions for theorem statements -/

/-- The kind of the error carried by a validation result, when any. -/
def errorKind (v : TokenValidation) : Option AuthErrorType :=
  v.error.map AuthError.error_type

/-! ## Theorems -/

/-- C5: for every token and every auth-service outcome, `validate_token`
writes to the token cache only when the produced `TokenValidation` is
valid: either the cache is returned unchanged, or the produced validation
has `valid = true` and is the entry added.  No failing validation is ever
stored. -/
theorem validate_token_caches_only_valid (enable_cache : Bool) (cache : TokenCache)
    (token : String) (outcome : AuthServiceOutcome) :
    (validate_token enable_cache cache token outcome).2 = cache
    ∨ ((validate_token enable_cache cache token outcome).1.valid = true
       ∧ (validate_token enable_cache cache token outcome).2
         = (token, (validate_token enable_cache cache token outcome).1) :: cache) := by
  unfold validate_token
  split
  · exact Or.inl rfl
  split
  · exact Or.inl rfl
  split
  · exact Or.inl rfl
  cases outcome with
  | timeout => exact Or.inl rfl
  | requestError => exact Or.inl rfl
  | otherException => exact Or.inl rfl
  | response r =>
    by_cases h200 : r.status_code = 200
    · by_cases hvu : (r.valid && r.user.isSome) = true
      · cases enable_cache with
        | true => right; simp [h200, hvu]
        | false => left; simp [h200, hvu]
      · left; simp [h200, hvu]
    · by_cases h401 : r.status_code = 401
      · left; simp [h200, h401]
      · by_cases h429 : r.status_code = 429
        · left; simp [h200, h401, h429]
        · left; simp [h200, h401, h429]

/-- C6: permission extraction tolerates the three payload shapes — a flat
non-empty list is returned as-is; a `scopes`/`resources` object yields the
cross-product combined as `"scope:resource"`; a JSON-encoded string of
either shape is handled the same way — and when no permissions result the
default is exactly `read:tools`, `read:resources`, `execute:mcp`. -/
theorem extract_permissions_shapes (l scopes resources : List String) :
    (l ≠ [] → extract_permissions_from_dashboard_response (.plist l) = l)
    ∧ (crossPerms scopes resources ≠ [] →
        extract_permissions_from_dashboard_response (.pdict scopes resources)
          = crossPerms scopes resources)
    ∧ (l ≠ [] →
        extract_permissions_from_dashboard_response (.pstr (some (.jlist l))) = l)
    ∧ (crossPerms scopes resources ≠ [] →
        extract_permissions_from_dashboard_response (.pstr (some (.jdict scopes resources)))
          = crossPerms scopes resources)
    ∧ extract_permissions_from_dashboard_response .absent = defaultMcpPermissions
    ∧ extract_permissions_from_dashboard_response (.plist []) = defaultMcpPermissions
    ∧ defaultMcpPermissions = ["read:tools", "read:resources", "execute:mcp"] := by
  refine ⟨?_, ?_, ?_, ?_, ?_, ?_, rfl⟩ <;>
    first
      | (intro h; simp [extract_permissions_from_dashboard_response, h])
      | simp [extract_permissions_from_dashboard_response]

/-- C6 witness: a concrete flat list is returned as-is and a concrete
cross-product expands to `scope:resource` pairs. -/
theorem extract_permissions_shapes_witness :
    extract_permissions_from_dashboard_response (.plist ["admin:all"]) = ["admin:all"]
    ∧ extract_permissions_from_dashboard_response (.pdict ["read"] ["agents", "tasks"])
        = ["read:agents", "read:tasks"] := by
  refine ⟨(extract_permissions_shapes ["admin:all"] ["read"] ["agents", "tasks"]).1 (by decide),
    ?_⟩
  have h := (extract_permissions_shapes ["admin:all"] ["read"] ["agents", "tasks"]).2.1
    (by decide)
  simpa [crossPerms] using h

/-- C7: an incoming MCP message without an `id` (a notification) is
answered with HTTP 204 and an empty body — never a JSON-RPC result or
error body — whatever the method and whatever the pipeline environment. -/
theorem handle_mcp_request_notification (env : PipelineEnv) (req : MCPRequestIn)
    (h : req.id = none) : handle_mcp_request env req = .noContent := by
  unfold handle_mcp_request
  rw [h]

/-- C7 witness: a concrete notification (even with an unrecognized method
and a failing environment) is acknowledged with no content. -/
theorem handle_mcp_request_notification_witness :
    handle_mcp_request
      { tenant_ok := false, perm_ok := false, validation_errors := ["bad"],
        size_ok := false, gateway_healthy := false,
        gateway_response := { success := false } }
      { method := "notifications/weird", id := none } = .noContent :=
  handle_mcp_request_notification _ _ rfl

/-- C1: for a non-empty, non-sentinel token that misses the cache,
`validate_token` maps the auth service's HTTP response as specified:
`200` with `valid=true` and a user object gives a valid result; `200`
otherwise gives `InvalidToken`; `401` gives `InvalidToken`; `429` gives
`RateLimitExceeded`; any other status gives `ServiceUnavailable`; and for
every outcome (responses and exceptions alike) a failing validation
carries an error — `validate_token` never raises. -/
theorem validate_token_status_mapping (enable_cache : Bool) (cache : TokenCache)
    (token : String) (r : AuthHttpResponse) (outcome : AuthServiceOutcome)
    (htok : token ≠ "") (hdev : token ≠ "dev_test123")
    (hmiss : cacheGet cache token = none) :
    (r.status_code = 200 → r.valid = true → r.user.isSome = true →
      (validate_token enable_cache cache token (.response r)).1.valid = true)
    ∧ (r.status_code = 200 → (r.valid = false ∨ r.user = none) →
      (validate_token enable_cache cache token (.response r)).1.valid = false
      ∧ errorKind (validate_token enable_cache cache token (.response r)).1
          = some .invalidToken)
    ∧ (r.status_code = 401 →
      (validate_token enable_cache cache token (.response r)).1.valid = false
      ∧ errorKind (validate_token enable_cache cache token (.response r)).1
          = some .invalidToken)
    ∧ (r.status_code = 429 →
      (validate_token enable_cache cache token (.response r)).1.valid = false
      ∧ errorKind (validate_token enable_cache cache token (.response r)).1
          = some .rateLimitExceeded)
    ∧ (r.status_code ≠ 200 → r.status_code ≠ 401 → r.status_code ≠ 429 →
      (validate_token enable_cache cache token (.response r)).1.valid = false
      ∧ errorKind (validate_token enable_cache cache token (.response r)).1
          = some .serviceUnavailable)
    ∧ ((validate_token enable_cache cache token outcome).1.valid = false →
      ((validate_token enable_cache cache token outcome).1.error).isSome = true) := by
  have hlookup : (if enable_cache then cacheGet cache token else none)
      = (none : Option TokenValidation) := by
    cases enable_cache <;> simp [hmiss]
  refine ⟨?_, ?_, ?_, ?_, ?_, ?_⟩
  · intro h200 hvalid huser
    by_cases hec : enable_cache <;>
      simp [validate_token, htok, hdev, hmiss, h200, hvalid, huser, hec]
  · intro h200 hbad
    have hvu : (r.valid && r.user.isSome) = false := by
      rcases hbad with h | h <;> simp [h]
    simp [validate_token, htok, hdev, hlookup, h200, hvu, errorKind]
  · intro h401
    have h200 : r.status_code ≠ 200 := by omega
    simp [validate_token, htok, hdev, hlookup, h200, h401, errorKind]
  · intro h429
    have h200 : r.status_code ≠ 200 := by omega
    have h401 : r.status_code ≠ 401 := by omega
    simp [validate_token, htok, hdev, hlookup, h200, h401, h429, errorKind]
  · intro h200 h401 h429
    simp [validate_token, htok, hdev, hlookup, h200, h401, h429, errorKind]
  · intro hfail
    cases outcome with
    | timeout => simp [validate_token, htok, hdev, hlookup]
    | requestError => simp [validate_token, htok, hdev, hlookup]
    | otherException => simp [validate_token, htok, hdev, hlookup]
    | response r2 =>
      by_cases h200 : r2.status_code = 200
      · by_cases hvu : (r2.valid && r2.user.isSome) = true
        · by_cases hec : enable_cache <;>
            simp [validate_token, htok, hdev, hmiss, h200, hvu, hec] at hfail
        · simp [validate_token, htok, hdev, hlookup, h200, hvu]
      · by_cases h401 : r2.status_code = 401
        · simp [validate_token, htok, hdev, hlookup, h200, h401]
        · by_cases h429 : r2.status_code = 429 <;>
            simp [validate_token, htok, hdev, hlookup, h200, h401, h429]

/-- C1 witness: the mapping evaluated at a concrete token, an empty cache
and concrete responses — a valid `200` response validates, a `429`
response yields `RateLimitExceeded`. -/
theorem validate_token_status_mapping_witness :
    (validate_token true [] "tok"
      (.response { status_code := 200, valid := true, user := some "u1" })).1.valid = true
    ∧ errorKind (validate_token true [] "tok" (.response { status_code := 429 })).1
        = some .rateLimitExceeded := by
  constructor
  · exact (validate_token_status_mapping true [] "tok"
      { status_code := 200, valid := true, user := some "u1" } .timeout
      (by decide) (by decide) rfl).1 rfl rfl rfl
  · exact ((validate_token_status_mapping true [] "tok"
      { status_code := 429 } .timeout (by decide) (by decide) rfl).2.2.2.1 rfl).2

/-- C2: `_execute_request` translates the gateway's status as specified:
`200` decodes the body into the `MCPForwardResponse` fields; `400` gives
code `-32602` with the body's `detail` when present (else "Bad request");
`401` gives `-32001` "Authentication failed"; `403` gives `-32002`
"Access denied"; `429` gives `-32003` "Rate limit exceeded"; any other
status raises a transport error (so a further attempt runs when one
remains), and after the final attempt it surfaces as `-32603` carrying
the gateway's error text. -/
theorem execute_request_status_mapping (body : GatewayBody) (status : Nat)
    (rest : List GatewayOutcome)
    (h200 : status ≠ 200) (h400 : status ≠ 400) (h401 : status ≠ 401)
    (h403 : status ≠ 403) (h429 : status ≠ 429) :
    execute_request (.http 200 body)
      = .ok { success := body.success, result := body.result, error := body.error,
              usage_recorded := body.usage_recorded,
              quota_remaining := body.quota_remaining,
              processing_time := body.processing_time }
    ∧ execute_request (.http 400 body)
      = .ok { success := false,
              error := some { code := -32602, message := body.detail.getD "Bad request" } }
    ∧ execute_request (.http 401 body)
      = .ok { success := false,
              error := some { code := -32001, message := "Authentication failed" } }
    ∧ execute_request (.http 403 body)
      = .ok { success := false,
              error := some { code := -32002, message := "Access denied" } }
    ∧ execute_request (.http 429 body)
      = .ok { success := false,
              error := some { code := -32003, message := "Rate limit exceeded" } }
    ∧ execute_request (.http status body) = .error ("Gateway error: " ++ body.text)
    ∧ (rest ≠ [] →
        execute_with_retries (.http status body :: rest) = execute_with_retries rest)
    ∧ forward_result [.http status body]
      = { success := false
          error := some { code := -32603
                          message := "Gateway communication error: "
                            ++ ("Gateway error: " ++ body.text) } } := by
  have he : execute_request (.http status body) = .error ("Gateway error: " ++ body.text) := by
    simp [execute_request, h200, h400, h401, h403, h429]
  refine ⟨by simp [execute_request], by simp [execute_request], by simp [execute_request],
    by simp [execute_request], by simp [execute_request], he, ?_, ?_⟩
  · intro hrest
    cases rest with
    | nil => exact absurd rfl hrest
    | cons o2 rs => simp [execute_with_retries, he]
  · simp [forward_result, execute_with_retries, he]

/-- C2 witness: a concrete `500` response is raised, retried past, and on
a single-attempt run surfaced as `-32603` with the gateway's error text;
a concrete `429` maps to `-32003`. -/
theorem execute_request_status_mapping_witness :
    forward_result [.http 500 { text := "boom" }]
      = { success := false
          error := some { code := -32603
                          message := "Gateway communication error: "
                            ++ ("Gateway error: " ++ "boom") } }
    ∧ execute_request (.http 429 { text := "boom" })
      = .ok { success := false,
              error := some { code := -32003, message := "Rate limit exceeded" } } := by
  have h := execute_request_status_mapping { text := "boom" } 500 [.http 200 {}]
    (by decide) (by decide) (by decide) (by decide) (by decide)
  exact ⟨h.2.2.2.2.2.2.2, h.2.2.2.2.1⟩

/-- The circuit-breaker invariant: an open (or half-open, which is only
reached from open) state carries at least `failure_threshold` recorded
failures. -/
def CBInv (s : CircuitBreakerState) : Prop :=
  (s.state = .opened ∨ s.state = .halfOpen) → s.failure_threshold ≤ s.failure_count

theorem cbinv_init (ft rt : Nat) : CBInv (initCB ft rt) := by
  intro h
  rcases h with h | h <;> simp [initCB] at h

theorem cbinv_apply (s : CircuitBreakerState) (op : CBOp) (hs : CBInv s) :
    CBInv (applyCBOp s op) := by
  cases op with
  | success =>
    intro h
    rcases h with h | h <;> simp [applyCBOp, record_success] at h
  | failure now =>
    intro h
    by_cases hthr : s.failure_threshold ≤ s.failure_count + 1
    · simp [applyCBOp, record_failure, hthr]
    · have hstate : (applyCBOp s (.failure now)).state = s.state := by
        simp [applyCBOp, record_failure, hthr]
      have hcount : (applyCBOp s (.failure now)).failure_count = s.failure_count + 1 := by
        simp [applyCBOp, record_failure, hthr]
      rw [hstate] at h
      have := hs h
      simp [applyCBOp, record_failure, hthr]
      omega
  | canExec now =>
    intro h
    cases hstate : s.state with
    | closed =>
      have hid : applyCBOp s (.canExec now) = s := by
        simp [applyCBOp, can_execute, hstate]
      rw [hid] at h ⊢
      exact hs h
    | halfOpen =>
      have : applyCBOp s (.canExec now) = s := by simp [applyCBOp, can_execute, hstate]
      rw [this] at h ⊢
      exact hs h
    | opened =>
      have hle := hs (Or.inl hstate)
      cases hlf : s.last_failure_time with
      | none =>
        have : applyCBOp s (.canExec now) = s := by simp [applyCBOp, can_execute, hstate, hlf]
        rw [this]
        exact hle
      | some t =>
        by_cases hrec : s.recovery_timeout ≤ now - t
        · simpa [applyCBOp, can_execute, hstate, hlf, hrec] using hle
        · simpa [applyCBOp, can_execute, hstate, hlf, hrec] using hle

theorem cbinv_run (s : CircuitBreakerState) (ops : List CBOp) (hs : CBInv s) :
    CBInv (runCBOps s ops) := by
  induction ops generalizing s with
  | nil => exact hs
  | cons op rest ih => exact ih _ (cbinv_apply s op hs)

/-- C3: along every sequence of circuit-breaker operations from the
initial state, an open state implies at least `failure_threshold`
failures; `record_success` resets the count to 0 and closes the circuit;
`record_failure` increments the count, stamps `last_failure_time`, and
opens the circuit exactly when the incremented count reaches the
threshold. -/
theorem circuit_breaker_invariant (ft rt now : Nat) (ops : List CBOp) :
    ((runCBOps (initCB ft rt) ops).state = .opened →
      (runCBOps (initCB ft rt) ops).failure_threshold
        ≤ (runCBOps (initCB ft rt) ops).failure_count)
    ∧ (record_success (runCBOps (initCB ft rt) ops)).failure_count = 0
    ∧ (record_success (runCBOps (initCB ft rt) ops)).state = .closed
    ∧ (record_failure now (runCBOps (initCB ft rt) ops)).failure_count
        = (runCBOps (initCB ft rt) ops).failure_count + 1
    ∧ (record_failure now (runCBOps (initCB ft rt) ops)).last_failure_time = some now
    ∧ ((record_failure now (runCBOps (initCB ft rt) ops)).state = .opened
        ↔ (runCBOps (initCB ft rt) ops).failure_threshold
            ≤ (runCBOps (initCB ft rt) ops).failure_count + 1) := by
  have hinv : CBInv (runCBOps (initCB ft rt) ops) :=
    cbinv_run _ ops (cbinv_init ft rt)
  set s := runCBOps (initCB ft rt) ops with hsdef
  refine ⟨fun h => hinv (Or.inl h), by simp [record_success], by simp [record_success],
    ?_, ?_, ?_⟩
  · by_cases hthr : s.failure_threshold ≤ s.failure_count + 1 <;>
      simp [record_failure, hthr]
  · by_cases hthr : s.failure_threshold ≤ s.failure_count + 1 <;>
      simp [record_failure, hthr]
  · constructor
    · intro h
      by_cases hthr : s.failure_threshold ≤ s.failure_count + 1
      · exact hthr
      · have hstate : (record_failure now s).state = s.state := by
          simp [record_failure, hthr]
        rw [hstate] at h
        have := hinv (Or.inl h)
        omega
    · intro hthr
      simp [record_failure, hthr]

/-- C3 witness: one failure at threshold 1 opens the circuit, and the
invariant instantiates there. -/
theorem circuit_breaker_invariant_witness :
    (runCBOps (initCB 1 60) [.failure 5]).state = .opened
    ∧ 1 ≤ (runCBOps (initCB 1 60) [.failure 5]).failure_count := by
  refine ⟨by decide, ?_⟩
  have h := (circuit_breaker_invariant 1 60 7 [.failure 5]).1 (by decide)
  simpa using h

theorem bucketGet_check_allowed (limit hour : Nat) (b : HourBuckets)
    (h : bucketGet b hour < limit) :
    (check_rate_limit true limit hour b).1 = true
    ∧ bucketGet (check_rate_limit true limit hour b).2 hour = bucketGet b hour + 1 := by
  have hnle : ¬ limit ≤ bucketGet b hour := Nat.not_le.mpr h
  have hkeep : ¬ (hour < hour - 1) := by omega
  have hres : check_rate_limit true limit hour b
      = (true, List.filter (fun p => !(p.1 < hour - 1))
          (bucketSet b hour (bucketGet b hour + 1))) := by
    simp [check_rate_limit, hnle]
  rw [hres]
  refine ⟨rfl, ?_⟩
  simp [bucketSet, bucketGet, hkeep]

theorem repeatCheck_bucketGet (limit hour : Nat) (k : Nat) (b : HourBuckets)
    (hk : bucketGet b hour + k ≤ limit) :
    bucketGet (repeatCheck true limit hour k b) hour = bucketGet b hour + k := by
  induction k generalizing b with
  | zero => simp [repeatCheck]
  | succ k ih =>
    have hlt : bucketGet b hour < limit := by omega
    have hstep := bucketGet_check_allowed limit hour b hlt
    have hrec := ih (check_rate_limit true limit hour b).2 (by omega)
    simp only [repeatCheck]
    rw [hrec, hstep.2]
    omega

/-- C4: with rate limiting enabled and an initially empty bucket state,
exactly `N` consecutive `check_rate_limit` calls in the same hour bucket
are allowed, the `(N+1)`th is rejected, and `get_rate_limit_info` after
that reports `remaining = 0` with `limit = N` and a 3600-second window. -/
theorem hourly_rate_limit_exhaustion (N hour : Nat) :
    (∀ k, k < N → (check_rate_limit true N hour (repeatCheck true N hour k [])).1 = true)
    ∧ (check_rate_limit true N hour (repeatCheck true N hour N [])).1 = false
    ∧ get_rate_limit_info N hour
        (check_rate_limit true N hour (repeatCheck true N hour N [])).2
      = { limit := N, remaining := 0, reset_time := (hour + 1) * 3600
          window_seconds := 3600 } := by
  have hempty : bucketGet [] hour = 0 := rfl
  have hcount : ∀ k, k ≤ N → bucketGet (repeatCheck true N hour k []) hour = k := by
    intro k hk
    have := repeatCheck_bucketGet N hour k [] (by simp [hempty]; omega)
    simpa [hempty] using this
  have hfullcount : bucketGet (repeatCheck true N hour N []) hour = N :=
    hcount N le_rfl
  have hreject :
      check_rate_limit true N hour (repeatCheck true N hour N [])
        = (false, repeatCheck true N hour N []) := by
    simp [check_rate_limit, hfullcount]
  refine ⟨?_, ?_, ?_⟩
  · intro k hk
    exact (bucketGet_check_allowed N hour _ (by rw [hcount k (le_of_lt hk)]; omega)).1
  · rw [hreject]
  · rw [hreject]
    simp [get_rate_limit_info, hfullcount]

/-- C4 witness: with limit 3, the second call is allowed, the fourth is
rejected, and the info afterwards reports zero remaining. -/
theorem hourly_rate_limit_exhaustion_witness :
    (check_rate_limit true 3 0 (repeatCheck true 3 0 1 [])).1 = true
    ∧ (check_rate_limit true 3 0 (repeatCheck true 3 0 3 [])).1 = false
    ∧ (get_rate_limit_info 3 0
        (check_rate_limit true 3 0 (repeatCheck true 3 0 3 [])).2).remaining = 0 := by
  have h := hourly_rate_limit_exhaustion 3 0
  exact ⟨h.1 1 (by decide), h.2.1, by rw [h.2.2]⟩

/-- Every stored bucket count is at most `limit`. -/
abbrev bucketsLE (limit : Nat) (b : HourBuckets) : Prop :=
  ∀ p ∈ b, p.2 ≤ limit

theorem bucketGet_le_of_bucketsLE (limit : Nat) (b : HourBuckets)
    (h : bucketsLE limit b) (hour : Nat) : bucketGet b hour ≤ limit := by
  unfold bucketGet
  cases hf : List.find? (fun p => p.1 = hour) b with
  | none => simp
  | some p => exact h p (List.mem_of_find?_eq_some hf)

theorem check_preserves_bucketsLE (enable : Bool) (limit hour : Nat)
    (b : HourBuckets) (h : bucketsLE limit b) :
    bucketsLE limit (check_rate_limit enable limit hour b).2 := by
  cases enable with
  | false => simpa [check_rate_limit] using h
  | true =>
    by_cases hle : limit ≤ bucketGet b hour
    · simpa [check_rate_limit, hle] using h
    · have hres : check_rate_limit true limit hour b
          = (true, List.filter (fun p => !(p.1 < hour - 1))
              (bucketSet b hour (bucketGet b hour + 1))) := by
        simp [check_rate_limit, hle]
      rw [hres]
      intro p hp
      rcases List.mem_filter.mp hp with ⟨hp1, _⟩
      rcases List.mem_cons.mp hp1 with hval | hp2
      · subst hval
        simpa using Nat.succ_le_of_lt (Nat.not_le.mp hle)
      · exact h p (List.mem_filter.mp hp2).1

theorem runChecks_preserves_bucketsLE (enable : Bool) (limit : Nat)
    (hours : List Nat) (b : HourBuckets) (h : bucketsLE limit b) :
    bucketsLE limit (runChecks enable limit hours b) := by
  induction hours generalizing b with
  | nil => exact h
  | cons hour rest ih =>
    exact ih _ (check_preserves_bucketsLE enable limit hour b h)

/-- C10: across every sequence of `check_rate_limit` calls from an empty
state, no stored hour-bucket counter ever exceeds the user's rate limit;
a rejected call leaves the state unchanged (no quota consumed); and
`get_rate_limit_info` never reports a negative `remaining`. -/
theorem hourly_counter_bounded (enable : Bool) (limit : Nat) (hours : List Nat)
    (hour h : Nat) (b : HourBuckets) :
    bucketGet (runChecks enable limit hours []) h ≤ limit
    ∧ ((check_rate_limit enable limit hour b).1 = false →
        (check_rate_limit enable limit hour b).2 = b)
    ∧ 0 ≤ (get_rate_limit_info limit hour b).remaining := by
  refine ⟨?_, ?_, ?_⟩
  · exact bucketGet_le_of_bucketsLE limit _
      (runChecks_preserves_bucketsLE enable limit hours [] (by intro p hp; cases hp)) h
  · intro hfalse
    cases enable with
    | false => simp [check_rate_limit] at hfalse
    | true =>
      by_cases hle : limit ≤ bucketGet b hour
      · simp [check_rate_limit, hle]
      · simp [check_rate_limit, hle] at hfalse
  · exact le_max_left 0 _

/-- C10 witness: with limit 0 the first call is rejected and leaves the
(empty) state unchanged. -/
theorem hourly_counter_bounded_witness :
    (check_rate_limit true 0 0 []).2 = ([] : HourBuckets)
    ∧ bucketGet (runChecks true 2 [7, 7, 7] []) 7 ≤ 2 := by
  refine ⟨(hourly_counter_bounded true 0 [] 0 0 []).2.1 (by decide), ?_⟩
  exact (hourly_counter_bounded true 2 [7, 7, 7] 0 7 []).1

/-- C8 counterexample: with `max_attempts = 1`, `window_seconds = 10`,
one attempt recorded at time 0, and the current time 100, zero
non-expired attempts remain (the eviction used by `is_allowed` empties
the deque, and `is_allowed` itself would admit the request), yet
`get_reset_time` still returns `some 10` — the claimed eviction-aware
`None` does not happen, because `get_reset_time` never evicts. -/
theorem get_reset_time_skips_eviction :
    (evict 100 10 [(0 : Int)]).length < 1
    ∧ (is_allowed 1 10 100 [(0 : Int)]).1 = true
    ∧ get_reset_time 1 10 [(0 : Int)] = some 10
    ∧ get_reset_time 1 10 [(0 : Int)] ≠ none := by decide

/-- C8 (amended): `get_remaining_attempts` is a projection of the same
eviction logic as `is_allowed` — it discards expired timestamps exactly
as `is_allowed` does and returns `max_attempts` minus the count of
non-expired attempts (clamped at zero); `get_reset_time`, however,
performs no eviction: it returns `None` exactly when the stored deque
(expired entries included) holds fewer than `max_attempts` timestamps,
and otherwise the time the oldest *stored* attempt leaves the window,
which may already lie in the past. -/
theorem rate_limiter_projections (m : Nat) (w now : Int) (a : List Int) :
    (get_remaining_attempts m w now a).1
      = max 0 ((m : Int) - (evict now w a).length)
    ∧ (get_remaining_attempts m w now a).2 = evict now w a
    ∧ (is_allowed m w now a).2
      = (if m ≤ (evict now w a).length then evict now w a
         else evict now w a ++ [now])
    ∧ (get_reset_time m w a = none ↔ (a = [] ∨ a.length < m))
    ∧ (∀ t rest, a = t :: rest → m ≤ a.length →
        get_reset_time m w a = some (t + w)) := by
  refine ⟨rfl, rfl, ?_, ?_, ?_⟩
  · unfold is_allowed
    by_cases hm : m ≤ (evict now w a).length <;> simp [hm]
  · cases a with
    | nil => simp [get_reset_time]
    | cons t rest =>
      unfold get_reset_time
      by_cases hlen : (t :: rest).length < m <;> simp [hlen]
  · intro t rest ha hm
    subst ha
    have hnl : ¬ (t :: rest).length < m := Nat.not_lt.mpr hm
    simp only [get_reset_time, if_neg hnl]

/-- C8 witness: the amended reset-time semantics evaluated on the
counterexample state — the stored deque holds `max_attempts` entries,
so the reset time is the (already past) expiry of the stored attempt. -/
theorem rate_limiter_projections_witness :
    get_reset_time 1 10 [(0 : Int)] = some (0 + 10)
    ∧ (get_remaining_attempts 1 10 100 [(0 : Int)]).1 = 1 := by
  constructor
  · exact (rate_limiter_projections 1 10 100 [(0 : Int)]).2.2.2.2 0 [] rfl (by decide)
  · have h := (rate_limiter_projections 1 10 100 [(0 : Int)]).1
    rw [h]
    decide

/-- C9: the middleware's token extractor accepts a bare token: a
non-empty `Authorization` header starting with `"Bearer "` yields the
remainder after the marker, any other non-empty header value is used
whole, and a bare token (that does not itself start with the marker)
authenticates identically to its Bearer-prefixed form. -/
theorem extract_token_bare_or_bearer (a : List Char) (h : a ≠ []) :
    (bearerMarker.isPrefixOf a = true → extract_token (some a) = some (a.drop 7))
    ∧ (bearerMarker.isPrefixOf a = false → extract_token (some a) = some a)
    ∧ (∀ t : List Char, t ≠ [] → bearerMarker.isPrefixOf t = false →
        extract_token (some (bearerMarker ++ t)) = extract_token (some t)) := by
  refine ⟨?_, ?_, ?_⟩
  · intro hpre
    simp [extract_token, h, hpre]
  · intro hpre
    simp [extract_token, h, hpre]
  · intro t ht hnp
    have hne : bearerMarker ++ t ≠ [] := by simp [bearerMarker]
    have hpre : bearerMarker.isPrefixOf (bearerMarker ++ t) = true := by
      rw [List.isPrefixOf_iff_prefix]
      exact List.prefix_append _ _
    have hdrop : (bearerMarker ++ t).drop 7 = t := by
      have h7 : bearerMarker.length = 7 := rfl
      rw [← h7, List.drop_left]
    simp [extract_token, hne, hpre, ht, hnp, hdrop]

/-- C9 witness: `"Bearer abc"` and bare `"abc"` extract to the same
token. -/
theorem extract_token_bare_or_bearer_witness :
    extract_token (some ['a', 'b', 'c']) = some ['a', 'b', 'c']
    ∧ extract_token (some (bearerMarker ++ ['a', 'b', 'c'])) = some ['a', 'b', 'c'] := by
  have h1 := (extract_token_bare_or_bearer ['a', 'b', 'c'] (by decide)).2.1 (by decide)
  have h2 := (extract_token_bare_or_bearer ['a', 'b', 'c'] (by decide)).2.2
    ['a', 'b', 'c'] (by decide) (by decide)
  exact ⟨h1, h2.trans h1⟩

end MeshAI
